import Mathlib

/-!
# Verification of the echo-downloader catalog / vault / download pipeline

This file gives a shallow embedding of the Python sources
`echo360_downloader.py`, `auth.py` and `__main__.py` of the
echo-downloader repository, and proves (or refutes) the specification
claims about them.

Conventions of the embedding:
* JSON values are the inductive `Json`; Python dict/list indexing, `in`,
  `len`, truthiness and `.get` are modelled by `Except PyErr` functions
  that raise exactly where CPython raises (`KeyError`, `TypeError`,
  `AttributeError`, `IndexError`, `ValueError`).
* Network and pickle I/O are oracles passed as function arguments.
* `logger.*(f"...")` calls evaluate their f-string arguments eagerly
  (as CPython does) even when the log level is disabled, so an indexing
  error inside a log message is a raised exception in the model.
* Cryptography (`PBKDF2HMAC` + `Fernet` from the external `cryptography`
  package) is out of the repository; it is abstracted as a key-derivation
  function and an authenticated symmetric scheme passed as parameters.
-/

/-- Python exception classes raised by the embedded code paths. -/
inductive PyErr where
  | keyError (k : String)
  | typeError
  | attributeError
  | indexError
  | valueError
  | unpicklingError
deriving DecidableEq, Repr

/-- JSON values, as returned by `requests.Response.json()`. Object fields
are an association list; keys are assumed unique (CPython dicts). -/
inductive Json where
  | null : Json
  | bool (b : Bool) : Json
  | num (n : Int) : Json
  | str (s : String) : Json
  | arr (l : List Json) : Json
  | obj (l : List (String × Json)) : Json

/-- `j == "s"` for a Python value `j` and a string literal: true exactly
when `j` is that string (comparison between different types is `False`,
never an error). -/
def Json.isStr (j : Json) (s : String) : Bool :=
  match j with
  | .str t => t = s
  | _ => false

/-- `j[k]` with a string key: dict lookup (`KeyError` when absent),
`TypeError` on any non-dict (CPython: list/str indices must be integers). -/
def Json.index (j : Json) (k : String) : Except PyErr Json :=
  match j with
  | .obj kvs =>
    match kvs.lookup k with
    | some v => .ok v
    | none => .error (.keyError k)
  | _ => .error .typeError

/-- `j[i]` with a non-negative integer literal: list/str indexing
(`IndexError` out of range), `KeyError` on a JSON dict (its keys are
strings), `TypeError` otherwise. -/
def Json.indexNat (j : Json) (i : Nat) : Except PyErr Json :=
  match j with
  | .arr l =>
    match l.get? i with
    | some v => .ok v
    | none => .error .indexError
  | .obj _ => .error (.keyError (toString i))
  | .str s =>
    match s.data.get? i with
    | some c => .ok (.str (String.mk [c]))
    | none => .error .indexError
  | _ => .error .typeError

/-- Substring test on character lists (Python `needle in haystack` for
strings). -/
def listIsInfix (needle : List Char) : List Char → Bool
  | [] => needle.isPrefixOf []
  | c :: rest => needle.isPrefixOf (c :: rest) || listIsInfix needle rest

/-- `"k" in j`: key test on dicts, membership on lists, substring test on
strings, `TypeError` on non-containers. -/
def Json.containsStr (j : Json) (k : String) : Except PyErr Bool :=
  match j with
  | .obj kvs => .ok (kvs.any (fun kv => kv.1 = k))
  | .arr l => .ok (l.any (fun v => v.isStr k))
  | .str s => .ok (listIsInfix k.data s.data)
  | _ => .error .typeError

/-- `j.get(k, d)`: only dicts have `.get`; anything else raises
`AttributeError`. -/
def Json.getDict (j : Json) (k : String) (d : Json) : Except PyErr Json :=
  match j with
  | .obj kvs => .ok ((kvs.lookup k).getD d)
  | _ => .error .attributeError

/-- `len(j)`: length of lists/dicts/strings, `TypeError` otherwise. -/
def Json.len (j : Json) : Except PyErr Nat :=
  match j with
  | .arr l => .ok l.length
  | .obj kvs => .ok kvs.length
  | .str s => .ok s.length
  | _ => .error .typeError

/-- Python truthiness of a JSON value (never raises). -/
def Json.truthy (j : Json) : Bool :=
  match j with
  | .null => false
  | .bool b => b
  | .num n => n ≠ 0
  | .str s => s ≠ ""
  | .arr l => !l.isEmpty
  | .obj kvs => !kvs.isEmpty

/-- `for x in j`: elements of a list, keys of a dict, characters of a
string; `TypeError` otherwise. -/
def Json.iter (j : Json) : Except PyErr (List Json) :=
  match j with
  | .arr l => .ok l
  | .obj kvs => .ok (kvs.map (fun kv => .str kv.1))
  | .str s => .ok (s.data.map (fun c => .str (String.mk [c])))
  | _ => .error .typeError

/-- Coerce to the underlying string; used where the Python code calls a
`str` method (`.replace`, `.split`) on the value, which raises
`AttributeError` for non-strings. -/
def Json.asStrAttr (j : Json) : Except PyErr String :=
  match j with
  | .str s => .ok s
  | _ => .error .attributeError

/-- Coerce to a string for string concatenation `s + j`; a non-string
right operand raises `TypeError`. -/
def Json.asStrConcat (j : Json) : Except PyErr String :=
  match j with
  | .str s => .ok s
  | _ => .error .typeError

/- ### `create_syllabus_link` (echo360_downloader.py lines 217-237)

The Python implementation matches
`re.match(r"https?\:\/\/echo360\.org\.uk\/section\/([A-Za-z0-9-]+)(\/.*)?", link)`.
`re.match` anchors at the start of the string only; the optional trailing
group can always match the empty string, so the regex succeeds exactly when
the string *begins* with `https?://echo360.org.uk/section/` followed by at
least one character of the id class, and group 1 is the maximal run of id
characters. -/

/-- Character class `[A-Za-z0-9-]` of the course-id group. -/
def idChar (c : Char) : Bool := c.isAlpha || c.isDigit || c == '-'

/-- Strip a literal prefix from a character list; `none` when the list does
not start with the literal. -/
def stripLit : List Char → List Char → Option (List Char)
  | [], s => some s
  | _ :: _, [] => none
  | c :: cs, d :: ds => if c = d then stripLit cs ds else none

/-- Match the regex prefix `https?://echo360.org.uk/section/` and return
the remainder of the string. -/
def sectionUrlRest (s : String) : Option (List Char) :=
  (stripLit "http".data s.data).bind fun r1 =>
    stripLit "://echo360.org.uk/section/".data ((stripLit "s".data r1).getD r1)

/-- `create_syllabus_link` (lines 217-237): on a regex match, returns
`https://echo360.org.uk/section/<group1>/syllabus`; otherwise `None`. -/
def create_syllabus_link (link : String) : Option String :=
  match sectionUrlRest link with
  | none => none
  | some rest =>
    let id := rest.takeWhile idChar
    if id.isEmpty then none
    else some (String.mk ("https://echo360.org.uk/section/".data ++ id ++ "/syllabus".data))

/-- Modelled from the spec: the course-URL pattern
`https?://echo360.org.uk/section/<id>(/...)?` read as a *full* match of the
whole string — the scheme/host/section prefix, a non-empty id of characters
`[A-Za-z0-9-]`, then either nothing or a `/`-initiated suffix. This is the
spec-side pattern that claim C3 quantifies over, to be compared with the
source's prefix-anchored `re.match`. -/
def specCourseUrlFull (s : String) : Bool :=
  match sectionUrlRest s with
  | none => false
  | some rest =>
    let id := rest.takeWhile idChar
    let tail := rest.drop id.length
    !id.isEmpty && (tail.isEmpty || tail.headD ' ' == '/')

/- ### `remove_illegal_characters` (echo360_downloader.py lines 337-355)

The Python loop performs `file_name.replace(c, "")` for each character of
`'?<>:*|"^/\\'`; replacing a single character by the empty string is
exactly removal of all its occurrences, i.e. a filter. -/

/-- The illegal characters `? < > : * | " ^ / \`, in source order. -/
def illegal_chars : List Char := "?<>:*|\"^/\\".data

/-- Successive `replace(c, "")` over the illegal characters. -/
def removeIllegalL (s : List Char) : List Char :=
  illegal_chars.foldl (fun acc c => acc.filter (fun ch => ch ≠ c)) s

/-- `remove_illegal_characters` (lines 337-355) on a path component. -/
def remove_illegal_characters (s : String) : String :=
  String.mk (removeIllegalL s.data)

/-- The file-path computation of `scrape_videos_for_lecture` (lines
201-206): the sanitized course label, `os.sep` (this tool targets POSIX,
where `os.sep = '/'`), then the sanitized file-name component. -/
def mkTrackFilename (course fname : String) : String :=
  remove_illegal_characters course ++ "/" ++ remove_illegal_characters fname

/- ### Dates

`datetime.fromisoformat` / `strftime("%Y-%m-%d")` are modelled only to the
precision the downloader uses: the calendar date. The `createdAt.replace("Z",
"+00:00")` step rewrites only the timezone suffix and cannot change the
leading `YYYY-MM-DD` characters, so it is dropped by the model. -/

structure PyDate where
  year : Nat
  month : Nat
  day : Nat
deriving DecidableEq, Repr

def digitVal (c : Char) : Nat := c.toNat - 48

/-- Parse the leading `YYYY-MM-DD` of an ISO-8601 string; `ValueError` on a
malformed date, in particular for non-digit characters, missing dashes, a
month outside 1..12 or a day outside 1..31, or a non-`T`/non-space
separator after the date. (CPython also validates the time-of-day part;
that refinement is not needed by any claim.) -/
def pyFromIso (s : String) : Except PyErr PyDate :=
  match s.data with
  | y1 :: y2 :: y3 :: y4 :: '-' :: m1 :: m2 :: '-' :: d1 :: d2 :: rest =>
    if [y1, y2, y3, y4, m1, m2, d1, d2].all Char.isDigit then
      let y := ((digitVal y1 * 10 + digitVal y2) * 10 + digitVal y3) * 10 + digitVal y4
      let m := digitVal m1 * 10 + digitVal m2
      let d := digitVal d1 * 10 + digitVal d2
      if 1 ≤ m ∧ m ≤ 12 ∧ 1 ≤ d ∧ d ≤ 31 ∧
          (rest = [] ∨ rest.headD ' ' = 'T' ∨ rest.headD 'T' = ' ') then
        .ok ⟨y, m, d⟩
      else .error .valueError
    else .error .valueError
  | _ => .error .valueError

def padNum (width n : Nat) : List Char :=
  let ds := (toString n).data
  List.replicate (width - ds.length) '0' ++ ds

/-- `date.strftime("%Y-%m-%d")`. -/
def strftimeYMD (d : PyDate) : String :=
  String.mk (padNum 4 d.year ++ '-' :: padNum 2 d.month ++ '-' :: padNum 2 d.day)

/- ### Media tracks and best-quality selection (lines 179-215) -/

/-- One entry of `primaryFiles`/`secondaryFiles`: the raw JSON dict plus
the sort key `(height, size)` extracted from it. -/
structure MediaFile where
  raw : Json
  height : Int
  size : Int

/-- The comparison `media.sort(key=lambda m: (m["height"], m["size"]),
reverse=True)` sorts by: `a` precedes `b` when the key tuple of `b` is
lexicographically ≤ the key tuple of `a`. -/
def mediaGe (a b : MediaFile) : Prop :=
  b.height < a.height ∨ (b.height = a.height ∧ b.size ≤ a.size)

instance : DecidableRel mediaGe := fun a b => by
  unfold mediaGe; infer_instance

instance : IsTotal MediaFile mediaGe where
  total a b := by
    unfold mediaGe
    rcases lt_trichotomy a.height b.height with h | h | h
    · exact Or.inr (Or.inl h)
    · rcases le_total b.size a.size with hs | hs
      · exact Or.inl (Or.inr ⟨h.symm, hs⟩)
      · exact Or.inr (Or.inr ⟨h, hs⟩)
    · exact Or.inl (Or.inl h)

instance : IsTrans MediaFile mediaGe where
  trans a b c hab hbc := by
    unfold mediaGe at *
    rcases hab with h1 | ⟨h1, h1'⟩ <;> rcases hbc with h2 | ⟨h2, h2'⟩
    · exact Or.inl (h2.trans h1)
    · exact Or.inl (h2 ▸ h1)
    · exact Or.inl (h1 ▸ h2)
    · exact Or.inr ⟨h2.trans h1, h2'.trans h1'⟩

/-- The in-place descending sort of a track's media list. CPython's sort is
stable; so is insertion sort, and no claim depends on the order of entries
with fully equal keys. -/
def sortMediasDesc (l : List MediaFile) : List MediaFile :=
  List.insertionSort mediaGe l

/-- Extract the sort keys of a track list. CPython's `list.sort` decorates
every element with its key before comparing, so a non-dict element or a
missing `height`/`size` raises before anything is reordered; comparison of
the `(height, size)` tuples needs integers (the shape the API documents;
uniformly non-integer keys, which CPython would also accept, are not
modelled). -/
def parseMediaKeys : List Json → Except PyErr (List MediaFile)
  | [] => .ok []
  | j :: rest => do
    let hj ← j.index "height"
    let sj ← j.index "size"
    match hj, sj with
    | .num h, .num s =>
      let tail ← parseMediaKeys rest
      .ok (⟨j, h, s⟩ :: tail)
    | _, _ => .error .typeError

/-- `media.sort(...)` is an attribute of `list`; a non-list (e.g. a JSON
dict under `primaryFiles`) raises `AttributeError`. -/
def Json.asList (j : Json) : Except PyErr (List Json) :=
  match j with
  | .arr l => .ok l
  | _ => .error .attributeError

/- ### `TargetVideo` (lines 20-44) -/

structure TargetVideo where
  filename : String
  /-- `track_media[0]["s3Url"]`; CPython stores whatever JSON value is
  present, the `str` annotation is not enforced. -/
  video_src_link : Json
  episode_name : String
  title : String
  date : PyDate

/- ### `scrape_videos_for_lecture` (echo360_downloader.py lines 124-215)

The HTTP fetch + `r.json()` of the per-lesson media endpoint is the oracle
`fetch`, keyed by the `lecture_id` value interpolated into the URL; `none`
models a body that fails to parse as JSON (the `except ValueError` branch).
Every subsequent dict/list access is translated in source order, including
accesses that only occur inside log-message f-strings. -/

/-- `"-" in s` / `s.split("-")` building block (CPython `str.split(sep)`,
which never drops empty parts). -/
def splitOnChar (sep : Char) : List Char → List (List Char)
  | [] => [[]]
  | c :: rest =>
    let r := splitOnChar sep rest
    if c = sep then [] :: r
    else
      match r with
      | [] => [[c]]
      | h :: t => (c :: h) :: t

/-- One emitted `TargetVideo` (lines 199-213) for a non-empty track. -/
def buildTarget (course_title lecture_title : Json) (video_date : PyDate)
    (video_id : String) (track_label : String) (track : List MediaFile)
    (both : Bool) : Except PyErr TargetVideo := do
  let ct ← course_title.asStrAttr    -- remove_illegal_characters calls .replace
  let suffix := if both then "-" ++ track_label else ""
  let fname := mkTrackFilename ct (strftimeYMD video_date ++ "-" ++ video_id ++ suffix ++ ".mp4")
  let src ← match track.head? with
    | some m => m.raw.index "s3Url"    -- track_media[0]["s3Url"]
    | none => .error .indexError
  let lt ← lecture_title.asStrConcat  -- lecture_title + " [...]"
  let tsuffix := if both then " [" ++ track_label ++ "]" else ""
  .ok { filename := fname
        video_src_link := src
        episode_name := strftimeYMD video_date ++ " " ++ lt ++ tsuffix
        title := lt ++ tsuffix
        date := video_date }

/-- `scrape_videos_for_lecture` (lines 124-215). -/
def scrape_videos_for_lecture (lecture_id : Json) (fetch : Json → Option Json) :
    Except PyErr (List TargetVideo) := do
  match fetch lecture_id with
  | none => return []                      -- could not parse JSON: logged, []
  | some response =>
    -- if "status" not in response or response["status"] != "ok":
    let hasStatus ← response.containsStr "status"
    let bad ← if !hasStatus then pure true
      else do
        let st ← response.index "status"
        pure (!(st.isStr "ok"))
    if bad then
      -- logger.error(f"Could not get videos for {lecture_id}: {response['status']}")
      let _ ← response.index "status"
      return []
    -- the six-way video-shape condition, in evaluation order
    let data ← response.index "data"
    let dlen ← data.len
    let cond ← if dlen == 0 then pure true
      else do
        let d0 ← (← response.index "data").indexNat 0
        let hv ← d0.containsStr "video"
        if !hv then pure true
        else do
          let video ← (← (← response.index "data").indexNat 0).index "video"
          let hm ← video.containsStr "media"
          if !hm then pure true
          else do
            let media ← video.index "media"
            let st ← media.getDict "status" (.str "")
            if !(st.isStr "Processed") then pure true
            else do
              let hm2 ← media.containsStr "media"
              if !hm2 then pure true
              else do
                let m2 ← media.index "media"
                let hc ← m2.containsStr "current"
                pure (!hc)
    if cond then return []                 -- "Lecture doesn't have videos."
    -- metadata condition
    let d0 ← (← response.index "data").indexNat 0
    let hus ← d0.containsStr "userSection"
    let cond2 ← if !hus then pure true
      else do
        let us ← d0.index "userSection"
        let hsn ← us.containsStr "sectionNumber"
        pure (!hsn)
    if cond2 then return []                -- "Lecture has no metadata."
    let course_title ← (← d0.index "userSection").index "sectionNumber"
    let video ← d0.index "video"
    let mediaObj ← video.index "media"
    let lecture_title ← mediaObj.getDict "name" (.str "Lecture")
    let createdAt ← mediaObj.index "createdAt"
    let createdStr ← createdAt.asStrAttr   -- .replace("Z", "+00:00")
    let video_date ← pyFromIso createdStr
    let current ← (← mediaObj.index "media").index "current"
    let primaryJ ← current.getDict "primaryFiles" (.arr [])
    let secondaryJ ← current.getDict "secondaryFiles" (.arr [])
    let primaryRaw ← primaryJ.asList       -- media.sort needs a list
    let primaryKeyed ← parseMediaKeys primaryRaw
    let secondaryRaw ← secondaryJ.asList
    let secondaryKeyed ← parseMediaKeys secondaryRaw
    let primary := sortMediasDesc primaryKeyed
    let secondary := sortMediasDesc secondaryKeyed
    let mediaIdJ ← current.index "mediaId"
    let mediaIdS ← mediaIdJ.asStrAttr      -- .split("-")
    let video_id := String.mk ((splitOnChar '-' mediaIdS.data).headD [])
    let both := !primary.isEmpty && !secondary.isEmpty
    let t1 ← if primary.isEmpty then pure [] else do
      let t ← buildTarget course_title lecture_title video_date video_id "primary" primary both
      pure [t]
    let t2 ← if secondary.isEmpty then pure [] else do
      let t ← buildTarget course_title lecture_title video_date video_id "secondary" secondary both
      pure [t]
    return t1 ++ t2

/- ### `scrape_videos` (echo360_downloader.py lines 46-122)

The function is embedded from its inputs at the network boundary:
`getJson` maps a URL to the parsed JSON body of `session.get` (after the
one login retry, which only affects which response comes back), with
`none` for a body that fails to parse; `fetch` is the per-lesson media
oracle passed down to `scrape_videos_for_lecture`.

The embedding additionally returns the list of per-lesson media requests
issued (one entry per `scrape_videos_for_lecture` call), which the source
performs as `session.get(f".../lesson/{lecture_id}/media")`. -/

/-- The body of the `for i, lecture_session in enumerate(response["data"])`
loop (lines 75-120) for one entry, accumulating targets and issued
per-lesson requests. -/
def processEntry (fetch : Json → Option Json) (ls : Json)
    (acc : List TargetVideo × List Json) :
    Except PyErr (List TargetVideo × List Json) := do
  -- if lecture_session["type"] != "SyllabusLessonType" or "lesson" not in
  --    lecture_session or "lesson" not in lecture_session["lesson"] or
  --    "medias" not in lecture_session["lesson"]:
  let ty ← ls.index "type"
  let cond ← if !(ty.isStr "SyllabusLessonType") then pure true
    else do
      let h1 ← ls.containsStr "lesson"
      if !h1 then pure true
      else do
        let lesson ← ls.index "lesson"
        let h2 ← lesson.containsStr "lesson"
        if !h2 then pure true
        else do
          let lesson' ← ls.index "lesson"
          let h3 ← lesson'.containsStr "medias"
          pure (!h3)
  if cond then
    -- logger.debug(f"Skipping {lecture_session['lesson']['name']}: ...")
    let lessonJ ← ls.index "lesson"
    let _ ← lessonJ.index "name"
    return acc                             -- continue
  -- the three informational checks: log only, no continue
  let lesson1 ← ls.index "lesson"
  let isPast ← lesson1.getDict "isPast" (.bool false)
  if !isPast.truthy then
    let l2 ← (← ls.index "lesson").index "lesson"
    let _ ← l2.index "name"
  let lesson2 ← ls.index "lesson"
  let hasContent ← lesson2.getDict "hasContent" (.bool false)
  if !hasContent.truthy then
    let l2 ← (← ls.index "lesson").index "lesson"
    let _ ← l2.index "name"
  let lesson3 ← ls.index "lesson"
  let hasVideo ← lesson3.getDict "hasVideo" (.bool false)
  if !hasVideo.truthy then
    let l2 ← (← ls.index "lesson").index "lesson"
    let _ ← l2.index "name"
  -- medias = lecture_session["lesson"]["medias"]; if len(medias) == 0: log
  -- only — the loop body continues to the media request regardless
  let medias ← (← ls.index "lesson").index "medias"
  let mlen ← medias.len
  if mlen == 0 then
    let l2 ← (← ls.index "lesson").index "lesson"
    let _ ← l2.index "name"
  -- lecture_id = lecture_session["lesson"]["lesson"]["id"]
  let lecture_id ← (← (← ls.index "lesson").index "lesson").index "id"
  -- targets += scrape_videos_for_lecture(lecture_id, session)
  let sub ← scrape_videos_for_lecture lecture_id fetch
  return (acc.1 ++ sub, acc.2 ++ [lecture_id])

def scrapeLoop (fetch : Json → Option Json) :
    List Json → (List TargetVideo × List Json) →
    Except PyErr (List TargetVideo × List Json)
  | [], acc => .ok acc
  | e :: rest, acc => do
    scrapeLoop fetch rest (← processEntry fetch e acc)

/-- `scrape_videos` (lines 46-122) from the parsed syllabus response on. -/
def scrape_videos_json (response : Json) (fetch : Json → Option Json) :
    Except PyErr (List TargetVideo × List Json) := do
  -- if "status" not in response or response["status"] != "ok":
  let hasStatus ← response.containsStr "status"
  let bad ← if !hasStatus then pure true
    else do
      let st ← response.index "status"
      pure (!(st.isStr "ok"))
  if bad then
    -- logger.error(f"Could not get lecture syllabus: {response['status']}")
    let _ ← response.index "status"
    return ([], [])
  let data ← response.index "data"
  let items ← data.iter
  scrapeLoop fetch items ([], [])

/-- `scrape_videos` (lines 46-122) end to end: URL rewriting, syllabus
fetch (with the authentication retry folded into the oracle) and the
per-entry loop. -/
def scrape_videos (link : String) (getJson : String → Option Json)
    (fetch : Json → Option Json) : Except PyErr (List TargetVideo × List Json) :=
  match create_syllabus_link link with
  | none => .ok ([], [])                   -- "URL format is not valid."
  | some syl =>
    match getJson syl with
    | none => .ok ([], [])                 -- "Could not parse JSON response."
    | some response => scrape_videos_json response fetch

/- ### `interactive_video_selection` (echo360_downloader.py lines 284-335)

One iteration of the prompt loop is embedded: `none` models an attempt
aborted by an unparsable token (warning + `break` + re-prompt); `some`
delivers the value the function returns after the `for`'s `else` fires.
`int()` is modelled for an optional ASCII sign followed by ASCII digits
(the only shapes whitespace-split tokens of interest can take; CPython
additionally accepts unicode digits and `_` separators). -/

def isPyWs (c : Char) : Bool :=
  c == ' ' || c == '\t' || c == '\n' || c == '\r' ||
  c == '\x0b' || c == '\x0c'

/-- `str.split()` with no argument: split on whitespace runs, no empty
tokens. -/
def pySplitWsAux : List Char → List Char → List (List Char)
  | [], [] => []
  | [], cur => [cur.reverse]
  | c :: rest, cur =>
    if isPyWs c then
      match cur with
      | [] => pySplitWsAux rest []
      | _ => cur.reverse :: pySplitWsAux rest []
    else pySplitWsAux rest (c :: cur)

def pySplitWs (l : List Char) : List (List Char) := pySplitWsAux l []

def digitsToNatAux : List Char → Nat → Option Nat
  | [], acc => some acc
  | c :: rest, acc =>
    if c.isDigit then digitsToNatAux rest (acc * 10 + digitVal c) else none

def digitsToNat : List Char → Option Nat
  | [] => none
  | l => digitsToNatAux l 0

/-- `int(token)` for a whitespace-free token. -/
def pyInt (l : List Char) : Option Int :=
  match l with
  | '+' :: rest => (digitsToNat rest).map Int.ofNat
  | '-' :: rest => (digitsToNat rest).map (fun n => -(n : Int))
  | _ => (digitsToNat l).map Int.ofNat

/-- `list(range(a, b + 1))`. -/
def pyRangeIncl (a b : Int) : List Int :=
  (List.range (b + 1 - a).toNat).map (fun (k : Nat) => a + (k : Int))

/-- The token loop of lines 309-323: ranges for tokens containing `-`
(a `ValueError` from unpacking or `int()` aborts the attempt), literal
integers otherwise. -/
def parse_tokens : List (List Char) → List Int → Option (List Int)
  | [], acc => some acc
  | t :: rest, acc =>
    if t.contains '-' then
      match splitOnChar '-' t with
      | [a, b] =>
        match pyInt a, pyInt b with
        | some x, some y => parse_tokens rest (acc ++ pyRangeIncl x y)
        | _, _ => none
      | _ => none
    else
      match pyInt t with
      | some n => parse_tokens rest (acc ++ [n])
      | none => none

/-- `interactive_video_selection` (lines 284-335) for one prompt input:
parse, then `sorted(list(set(selection)))`. -/
def interactive_video_selection (input : String) : Option (List Int) :=
  (parse_tokens (pySplitWs input.data) []).map
    (fun sel => List.insertionSort (· ≤ ·) sel.dedup)

/- ### The selection-consuming loop of `main` (__main__.py lines 270-271) -/

/-- CPython list indexing with an `int`: negative indices count from the
end, anything outside `[-len, len)` raises `IndexError`. -/
def pyListIndex (l : List TargetVideo) (i : Int) : Except PyErr TargetVideo :=
  let j := if i < 0 then i + l.length else i
  if h : 0 ≤ j ∧ j.toNat < l.length then .ok (l.get ⟨j.toNat, h.2⟩)
  else .error .indexError

/-- `for i in selection: video_target_collection.append(available_videos[i])`
— no bounds check before indexing. -/
def mainCollectSelected (available : List TargetVideo) :
    List Int → Except PyErr (List TargetVideo)
  | [] => .ok []
  | i :: rest => do
    let v ← pyListIndex available i
    let tail ← mainCollectSelected available rest
    .ok (v :: tail)

/- ### Session-cookie vault (auth.py lines 31-56)

`PBKDF2HMAC(SHA256, 100000 iters, salt)` + `Fernet` come from the external
`cryptography` package; they are abstracted as a key-derivation function
`kdf` and an authenticated scheme `enc`/`dec` over byte lists. The
repository code under verification is the salt handling: `encrypt` draws a
16-byte salt and returns `salt + fernet(key).encrypt(data)`; `decrypt`
splits `data[:16]` / `data[16:]` and re-derives the key. -/

section Vault

variable {Key : Type}

/-- `encrypt` (auth.py lines 31-42); the nondeterministic `os.urandom(16)`
is the explicit `salt` argument. -/
def encrypt (enc : Key → List Nat → List Nat) (kdf : String → List Nat → Key)
    (data : List Nat) (password : String) (salt : List Nat) : List Nat :=
  salt ++ enc (kdf password salt) data

/-- `decrypt` (auth.py lines 44-56); `none` models the `DecryptionError`
raised by `fernet.decrypt` on a wrong key or corrupted data. -/
def decrypt (dec : Key → List Nat → Option (List Nat))
    (kdf : String → List Nat → Key) (data : List Nat) (password : String) :
    Option (List Nat) :=
  dec (kdf password (data.take 16)) (data.drop 16)

/- ### `load_session_cookies` (auth.py lines 72-91) -/

/-- Values the pickled cookie envelope can hold. -/
inductive PyObj where
  | pair (a b : PyObj)
  | bool (b : Bool)
  | bytes (bs : List Nat)
  | strdict (kvs : List (String × String))
  | other

/-- Python truthiness of an envelope component. -/
def PyObj.truthy : PyObj → Bool
  | .pair _ _ => true
  | .bool b => b
  | .bytes bs => !bs.isEmpty
  | .strdict kvs => !kvs.isEmpty
  | .other => true

/-- Contents of the cookie file: `garbage` is a byte stream the outer
`pickle.load` cannot parse (it raises `UnpicklingError`). -/
inductive CookieFile where
  | garbage
  | value (v : PyObj)

/-- `session.cookies.set(name, value, domain=...)` over all items. -/
def setAll (kvs : List (String × String)) (c0 : List (String × String)) :
    List (String × String) :=
  c0 ++ kvs

/-- `load_session_cookies` (auth.py lines 72-91). `file` is the cookie file
(`none` = missing), `unpickle` models `pickle.loads` on decrypted bytes,
and the result pairs the returned `bool` with the session's cookies.

Only the `decrypt(...)`/`pickle.loads(...)` pair is inside the
`try/except`; the outer `pickle.load(f)`, the 2-tuple unpacking, and the
final `cookies.items()` loop are not. -/
def load_session_cookies (dec : Key → List Nat → Option (List Nat))
    (kdf : String → List Nat → Key) (unpickle : List Nat → Option PyObj)
    (file : Option CookieFile) (password : String)
    (cookies0 : List (String × String)) :
    Except PyErr (Bool × List (String × String)) :=
  match file with
  | none => .ok (false, cookies0)          -- not os.path.exists
  | some .garbage => .error .unpicklingError
  | some (.value v) =>
    match v with
    | .pair a b =>
      if !a.truthy then
        -- unencrypted: cookies = cookies_data; cookies.items() needs a dict
        match b with
        | .strdict kvs => .ok (true, setAll kvs cookies0)
        | _ => .error .attributeError
      else
        match b with
        | .bytes bs =>
          match decrypt dec kdf bs password with
          | none => .ok (false, cookies0)  -- caught: "Failed to decrypt"
          | some plain =>
            match unpickle plain with
            | none => .ok (false, cookies0)
            | some obj =>
              match obj with
              | .strdict kvs => .ok (true, setAll kvs cookies0)
              | _ => .error .attributeError -- .items() outside the try
        | _ => .ok (false, cookies0)       -- decrypt raised inside the try
    | _ => .error .typeError               -- tuple unpacking failed

end Vault

/- ### `download` (echo360_downloader.py lines 357-430)

Filesystem and network are explicit state: an association list of files,
the set of known directories, and the ordered log of fetched URLs. Both
progress-bar branches write exactly the response body, so the body written
is `net url` in every branch. -/

structure DlState where
  files : List (String × List Nat)
  dirs : List String
  fetched : List String

def setFile (p : String) (c : List Nat) (fs : List (String × List Nat)) :
    List (String × List Nat) :=
  (p, c) :: fs.filter (fun kv => kv.1 ≠ p)

def delFile (p : String) (fs : List (String × List Nat)) :
    List (String × List Nat) :=
  fs.filter (fun kv => kv.1 ≠ p)

def fileExists (st : DlState) (p : String) : Bool :=
  (st.files.lookup p).isSome

/-- `os.path.dirname` of the (absolute) path: everything before the last
separator. -/
def dirname (p : String) : String :=
  String.mk (((p.data.reverse.dropWhile (fun c => c ≠ '/')).drop 1).reverse)

/-- `download` (lines 357-430): ensure the directory, skip when the file
exists, otherwise stream to `file_name + ".part"` and rename. -/
def download (file_name url : String) (net : String → List Nat)
    (st : DlState) : DlState :=
  let dir := dirname file_name
  let st1 := if st.dirs.contains dir then st else { st with dirs := dir :: st.dirs }
  if fileExists st1 file_name then st1     -- "Download skipped - file already exists"
  else
    let content := net url
    let st2 := { st1 with
      files := setFile (file_name ++ ".part") content st1.files,
      fetched := st1.fetched ++ [url] }
    -- os.rename(file_name + ".part", file_name)
    { st2 with files := setFile file_name content (delFile (file_name ++ ".part") st2.files) }

/-! ## Helper lemmas -/

theorem removeIllegalL_foldl (L : List Char) (s : List Char) :
    L.foldl (fun acc c => acc.filter (fun ch => ch ≠ c)) s =
      s.filter (fun ch => decide (ch ∉ L)) := by
  induction L generalizing s with
  | nil => simp
  | cons c L ih =>
    rw [List.foldl_cons, ih, List.filter_filter]
    apply List.filter_congr
    intro ch _
    simp only [List.mem_cons, not_or, decide_not]
    cases h1 : decide (ch ∈ L) <;> cases h2 : decide (ch = c) <;>
      simp_all

/-- `remove_illegal_characters` is exactly the filter that drops the
illegal characters and keeps everything else. -/
theorem remove_illegal_eq_filter (s : String) :
    (remove_illegal_characters s).data =
      s.data.filter (fun ch => decide (ch ∉ illegal_chars)) := by
  show removeIllegalL s.data = _
  exact removeIllegalL_foldl illegal_chars s.data

theorem not_mem_removeIllegal {c : Char} (h : c ∈ illegal_chars) (s : String) :
    c ∉ (remove_illegal_characters s).data := by
  rw [remove_illegal_eq_filter]
  intro hc
  have := (List.mem_filter.mp hc).2
  simp only [decide_eq_true_eq] at this
  exact this h

theorem count_removeIllegal_eq_zero {c : Char} (h : c ∈ illegal_chars) (s : String) :
    (remove_illegal_characters s).data.count c = 0 :=
  List.count_eq_zero.mpr (not_mem_removeIllegal h s)

/-! ## C6: path sanitization -/

/-- C6: `remove_illegal_characters` removes every occurrence of
`? < > : * | " ^ / \` (and nothing else: it is the filter keeping the
other characters), and since it is applied to the course label and to the
file-name component separately, the single `/` separator inserted between
them is the only slash of the resulting relative path: a `/` inside the
course label can never merge the directory with the file name. -/
theorem remove_illegal_characters_spec :
    (∀ s : String, (remove_illegal_characters s).data =
        s.data.filter (fun ch => decide (ch ∉ illegal_chars))) ∧
    (∀ (s : String) (c : Char), c ∈ illegal_chars →
        c ∉ (remove_illegal_characters s).data) ∧
    (∀ course fname : String, (mkTrackFilename course fname).data.count '/' = 1) := by
  refine ⟨remove_illegal_eq_filter, fun s c h => not_mem_removeIllegal h s, fun course fname => ?_⟩
  have hsep : ('/' : Char) ∈ illegal_chars := by decide
  show ((remove_illegal_characters course ++ "/" ++ remove_illegal_characters fname).data).count '/' = 1
  rw [String.data_append, String.data_append, List.count_append, List.count_append,
    count_removeIllegal_eq_zero hsep, count_removeIllegal_eq_zero hsep]
  rfl

/-- Witness for C6 at a concrete label containing a slash. -/
theorem remove_illegal_characters_spec_witness :
    ('/' : Char) ∈ illegal_chars ∧
    ('/' : Char) ∉ (remove_illegal_characters "INFR/08015").data ∧
    (mkTrackFilename "INFR/08015" "2024-03-05-abc.mp4").data.count '/' = 1 :=
  ⟨by decide, remove_illegal_characters_spec.2.1 "INFR/08015" '/' (by decide),
    remove_illegal_characters_spec.2.2 "INFR/08015" "2024-03-05-abc.mp4"⟩

/-! ## C5: best-quality track selection -/

/-- C5: for every non-empty track media list, the entry selected by the
descending `(height, size)` sort of `scrape_videos_for_lecture` (the head
`track_media[0]` of `sortMediasDesc`) is one of the entries, has maximal
height, and among the entries of maximal height has maximal size —
independently of the input order. -/
theorem track_selection_policy (l : List MediaFile) (h : l ≠ []) :
    ∃ m, (sortMediasDesc l).head? = some m ∧ m ∈ l ∧
      (∀ x ∈ l, x.height ≤ m.height) ∧
      (∀ x ∈ l, x.height = m.height → x.size ≤ m.size) := by
  have hperm : List.Perm (sortMediasDesc l) l := List.perm_insertionSort mediaGe l
  cases hs : sortMediasDesc l with
  | nil =>
    rw [hs] at hperm
    exact absurd hperm.symm.eq_nil h
  | cons m t =>
    have hsorted : List.Sorted mediaGe (m :: t) := by
      rw [← hs]; exact List.sorted_insertionSort mediaGe l
    rw [hs] at hperm
    have hmem : ∀ x ∈ l, x = m ∨ x ∈ t := by
      intro x hx
      have := hperm.symm.subset hx
      simpa using this
    have hge : ∀ x ∈ l, mediaGe m x ∨ x = m := by
      intro x hx
      rcases hmem x hx with h' | h'
      · exact Or.inr h'
      · exact Or.inl (List.rel_of_sorted_cons hsorted x h')
    refine ⟨m, rfl, hperm.subset (List.mem_cons_self m t), ?_, ?_⟩
    · intro x hx
      rcases hge x hx with hg | rfl
      · rcases hg with h' | ⟨h', _⟩
        · exact le_of_lt h'
        · exact le_of_eq h'
      · exact le_refl _
    · intro x hx hh
      rcases hge x hx with hg | rfl
      · rcases hg with h' | ⟨_, h'⟩
        · exact absurd hh (ne_of_lt h')
        · exact h'
      · exact le_refl _

/-- Witness for C5 at the spec's example `[(height=480,size=100),
(height=720,size=50)]`. -/
theorem track_selection_policy_witness :
    ([⟨Json.null, 480, 100⟩, ⟨Json.null, 720, 50⟩] : List MediaFile) ≠ [] ∧
    (∃ m, (sortMediasDesc [⟨Json.null, 480, 100⟩, ⟨Json.null, 720, 50⟩]).head? = some m ∧
      m ∈ ([⟨Json.null, 480, 100⟩, ⟨Json.null, 720, 50⟩] : List MediaFile) ∧
      (∀ x ∈ ([⟨Json.null, 480, 100⟩, ⟨Json.null, 720, 50⟩] : List MediaFile),
        x.height ≤ m.height) ∧
      (∀ x ∈ ([⟨Json.null, 480, 100⟩, ⟨Json.null, 720, 50⟩] : List MediaFile),
        x.height = m.height → x.size ≤ m.size)) :=
  ⟨List.cons_ne_nil _ _,
    track_selection_policy [⟨Json.null, 480, 100⟩, ⟨Json.null, 720, 50⟩] (List.cons_ne_nil _ _)⟩

/-! ## Selection-parser lemmas (shared by C8 and C10) -/

theorem pyInt_nonneg {t : List Char} (hnm : '-' ∉ t) {n : Int}
    (h : pyInt t = some n) : 0 ≤ n := by
  unfold pyInt at h
  split at h
  · rcases Option.map_eq_some'.mp h with ⟨k, _, rfl⟩
    exact Int.ofNat_nonneg k
  · next rest => exact absurd (List.mem_cons_self '-' rest) hnm
  · rcases Option.map_eq_some'.mp h with ⟨k, _, rfl⟩
    exact Int.ofNat_nonneg k

theorem splitOnChar_ne_nil (sep : Char) (l : List Char) : splitOnChar sep l ≠ [] := by
  cases l with
  | nil => simp [splitOnChar]
  | cons c rest =>
    simp only [splitOnChar]
    split
    · simp
    · split <;> simp

theorem splitOnChar_not_mem (sep : Char) (l : List Char) :
    ∀ p ∈ splitOnChar sep l, sep ∉ p := by
  induction l with
  | nil =>
    intro p hp
    simp only [splitOnChar, List.mem_singleton] at hp
    simp [hp]
  | cons c rest ih =>
    intro p hp
    unfold splitOnChar at hp
    by_cases hc : c = sep
    · rw [if_pos hc] at hp
      rcases List.mem_cons.mp hp with rfl | h'
      · simp
      · exact ih p h'
    · rw [if_neg hc] at hp
      cases hr : splitOnChar sep rest with
      | nil => exact absurd hr (splitOnChar_ne_nil sep rest)
      | cons h0 t0 =>
        rw [hr] at hp
        rcases List.mem_cons.mp hp with rfl | h'
        · intro hmem
          rcases List.mem_cons.mp hmem with rfl | h''
          · exact hc rfl
          · exact ih h0 (hr ▸ List.mem_cons_self h0 t0) h''
        · exact ih p (hr ▸ List.mem_cons.mpr (Or.inr h'))

theorem pyRangeIncl_nonneg {a b : Int} (ha : 0 ≤ a) :
    ∀ n ∈ pyRangeIncl a b, 0 ≤ n := by
  intro n hn
  rcases List.mem_map.mp hn with ⟨k, _, rfl⟩
  omega

theorem parse_tokens_nonneg :
    ∀ (ts : List (List Char)) (acc out : List Int),
      (∀ i ∈ acc, 0 ≤ i) → parse_tokens ts acc = some out → ∀ i ∈ out, 0 ≤ i := by
  intro ts
  induction ts with
  | nil =>
    intro acc out hacc h
    simp only [parse_tokens, Option.some.injEq] at h
    exact h ▸ hacc
  | cons t rest ih =>
    intro acc out hacc h
    unfold parse_tokens at h
    split at h
    · -- range token
      split at h
      · next a b _ =>
        cases hx : pyInt a with
        | none => rw [hx] at h; simp at h
        | some x =>
          cases hy : pyInt b with
          | none => rw [hx, hy] at h; simp at h
          | some y =>
            rw [hx, hy] at h
            refine ih _ out ?_ h
            intro i hi
            rcases List.mem_append.mp hi with h' | h'
            · exact hacc i h'
            · have hna : '-' ∉ a := by
                next hsplit =>
                  exact splitOnChar_not_mem '-' t a (hsplit ▸ List.mem_cons_self a [b])
              exact pyRangeIncl_nonneg (pyInt_nonneg hna hx) i h'
      · exact absurd h (by simp)
    · -- literal token
      next hcont =>
      cases hn : pyInt t with
      | none => rw [hn] at h; simp at h
      | some n =>
        rw [hn] at h
        refine ih _ out ?_ h
        intro i hi
        rcases List.mem_append.mp hi with h' | h'
        · exact hacc i h'
        · have hnm : '-' ∉ t := by
            intro hmem
            rw [List.contains_eq_any_beq] at hcont
            exact hcont (List.any_eq_true.mpr ⟨'-', hmem, by simp⟩)
          rcases List.mem_singleton.mp h' with rfl
          exact pyInt_nonneg hnm hn

/-- The values `interactive_video_selection` can return are strictly
increasing lists of non-negative integers. -/
theorem interactive_selection_invariant (input : String) (out : List Int)
    (h : interactive_video_selection input = some out) :
    List.Pairwise (· < ·) out ∧ ∀ i ∈ out, 0 ≤ i := by
  unfold interactive_video_selection at h
  cases hp : parse_tokens (pySplitWs input.data) [] with
  | none => rw [hp] at h; simp at h
  | some sel =>
    rw [hp] at h
    simp only [Option.map_some', Option.some.injEq] at h
    subst h
    constructor
    · have hs : List.Sorted (· ≤ ·) (List.insertionSort (· ≤ ·) sel.dedup) :=
        List.sorted_insertionSort (· ≤ ·) sel.dedup
      have hn : (List.insertionSort (· ≤ ·) sel.dedup).Nodup :=
        (List.perm_insertionSort (· ≤ ·) sel.dedup).nodup_iff.mpr (List.nodup_dedup sel)
      exact hs.lt_of_le hn
    · intro i hi
      have : i ∈ sel.dedup :=
        (List.perm_insertionSort (· ≤ ·) sel.dedup).subset hi
      exact parse_tokens_nonneg _ [] sel (by simp) hp i (List.mem_dedup.mp this)

/-! ## C8: interactive selection parser -/

/-- C8: the parser splits on whitespace, accepts literal integers and
`A-B` inclusive ranges, aborts the attempt (re-prompt, no crash) on an
unparsable token, returns a deduplicated ascending list, maps empty input
to the empty selection, and on `"0 2-4 2"` yields `[0, 2, 3, 4]`. -/
theorem interactive_video_selection_spec :
    (∀ (input : String) (out : List Int),
        interactive_video_selection input = some out →
        List.Pairwise (· < ·) out) ∧
    interactive_video_selection "0 2-4 2" = some [0, 2, 3, 4] ∧
    interactive_video_selection "" = some [] ∧
    interactive_video_selection "x" = none :=
  ⟨fun input out h => (interactive_selection_invariant input out h).1, rfl, rfl, rfl⟩

/-- Witness for C8: the sortedness invariant applied at `"7 0 3"`. -/
theorem interactive_video_selection_spec_witness :
    List.Pairwise (· < ·) ([0, 3, 7] : List Int) :=
  interactive_video_selection_spec.1 "7 0 3" [0, 3, 7] rfl

/-! ## C10: indices are non-negative and increasing, but unbounded -/

/-- C10: every returned selection is strictly increasing and non-negative
(no accepted token can produce a negative index), but nothing bounds the
indices by the number of available videos — `"5"` is accepted as `[5]` —
and the consuming loop of `main` indexes the video list directly, raising
`IndexError` on a 1-element list. -/
theorem interactive_selection_unbounded :
    (∀ (input : String) (out : List Int),
        interactive_video_selection input = some out →
        List.Pairwise (· < ·) out ∧ ∀ i ∈ out, 0 ≤ i) ∧
    interactive_video_selection "5" = some [5] ∧
    mainCollectSelected [⟨"", Json.null, "", "", ⟨2024, 1, 1⟩⟩] [5] =
      .error PyErr.indexError :=
  ⟨interactive_selection_invariant, rfl, rfl⟩

/-- Witness for C10: non-negativity and sortedness at `"2-4 1"`. -/
theorem interactive_selection_unbounded_witness :
    List.Pairwise (· < ·) ([1, 2, 3, 4] : List Int) ∧
    ∀ i ∈ ([1, 2, 3, 4] : List Int), 0 ≤ i :=
  interactive_selection_unbounded.1 "2-4 1" [1, 2, 3, 4] rfl

/-! ## C4: vault round-trip and wrong-password failure

The structural content verified here is the repository's salt handling:
`encrypt` prefixes the fresh 16-byte salt, `decrypt` splits it back off
and re-derives the key with identical KDF parameters. The cryptographic
contract of the external library — authenticated decryption succeeds
exactly under the encrypting key, and the KDF separates distinct
passwords — enters as hypotheses (for the real PBKDF2/Fernet they hold
up to negligible collision probability). -/

/-- C4: with a salt of the drawn length 16 and a scheme satisfying the
library contract, `decrypt (encrypt payload pw) pw = payload` for every
payload and non-empty password, and decryption under any other password
fails with a decryption error (`none`) instead of returning data. -/
theorem vault_roundtrip_auth {Key : Type}
    (enc : Key → List Nat → List Nat) (dec : Key → List Nat → Option (List Nat))
    (kdf : String → List Nat → Key)
    (hRound : ∀ k m, dec k (enc k m) = some m)
    (hAuth : ∀ k k' m, k' ≠ k → dec k' (enc k m) = none)
    (hKdf : ∀ p p' s, p ≠ p' → kdf p s ≠ kdf p' s)
    (data salt : List Nat) (pw pw1 pw2 : String)
    (hsalt : salt.length = 16) (_hpw : pw ≠ "") (hne : pw1 ≠ pw2) :
    decrypt dec kdf (encrypt enc kdf data pw salt) pw = some data ∧
    decrypt dec kdf (encrypt enc kdf data pw1 salt) pw2 = none := by
  unfold encrypt decrypt
  constructor
  · rw [List.take_left' hsalt, List.drop_left' hsalt]
    exact hRound _ _
  · rw [List.take_left' hsalt, List.drop_left' hsalt]
    exact hAuth _ _ _ (hKdf pw2 pw1 salt (Ne.symm hne))

/- A concrete instance of the library contract, for the witness: the key
is a byte list, the KDF is byte-encoding of the password, and the scheme
length-prefixes the key so that decryption can authenticate it. -/

def toyKdf (p : String) (_salt : List Nat) : List Nat := p.data.map Char.toNat

def toyEnc (k m : List Nat) : List Nat := k.length :: (k ++ m)

def toyDec (k c : List Nat) : Option (List Nat) :=
  if c.take (k.length + 1) = k.length :: k then some (c.drop (k.length + 1))
  else none

theorem toyDec_enc (k m : List Nat) : toyDec k (toyEnc k m) = some m := by
  unfold toyDec toyEnc
  rw [if_pos]
  · rw [List.drop_succ_cons, List.drop_left]
  · rw [List.take_succ_cons, List.take_left]

theorem toyDec_enc_ne (k k' m : List Nat) (h : k' ≠ k) :
    toyDec k' (toyEnc k m) = none := by
  unfold toyDec toyEnc
  rw [if_neg]
  intro hEq
  rw [List.take_succ_cons] at hEq
  have hlen : k.length = k'.length := (List.cons.injEq _ _ _ _ ▸ hEq).1
  have htake : (k ++ m).take k'.length = k' := (List.cons.injEq _ _ _ _ ▸ hEq).2
  rw [← hlen, List.take_left] at htake
  exact h htake.symm

theorem char_toNat_injective : Function.Injective Char.toNat := by
  intro a b h
  have := congrArg Char.ofNat h
  rwa [Char.ofNat_toNat, Char.ofNat_toNat] at this

theorem toyKdf_sep (p p' : String) (s : List Nat) (h : p ≠ p') :
    toyKdf p s ≠ toyKdf p' s := by
  intro hEq
  apply h
  have hdata : p.data = p'.data :=
    List.map_injective_iff.mpr char_toNat_injective hEq
  cases p; cases p'
  exact congrArg String.mk (by simpa using hdata)

/-- Witness for C4 at payload `[1, 2, 3]`, passwords `"a"`/`"b"` and the
all-zero 16-byte salt. -/
theorem vault_roundtrip_auth_witness :
    (List.replicate 16 0 : List Nat).length = 16 ∧ ("a" : String) ≠ "" ∧
    ("a" : String) ≠ "b" ∧
    decrypt toyDec toyKdf
        (encrypt toyEnc toyKdf [1, 2, 3] "a" (List.replicate 16 0)) "a" =
      some [1, 2, 3] ∧
    decrypt toyDec toyKdf
        (encrypt toyEnc toyKdf [1, 2, 3] "a" (List.replicate 16 0)) "b" =
      none :=
  have h := vault_roundtrip_auth toyEnc toyDec toyKdf toyDec_enc toyDec_enc_ne
    toyKdf_sep [1, 2, 3] (List.replicate 16 0) "a" "a" "b"
    (by simp) (by decide) (by decide)
  ⟨by simp, by decide, by decide, h.1, h.2⟩

/-! ## C7: download skip / fetch-once -/

theorem fileExists_congr {s1 s2 : DlState} (h : s1.files = s2.files) (f : String) :
    fileExists s1 f = fileExists s2 f := by
  unfold fileExists
  rw [h]

theorem download_of_exists {f url : String} {net : String → List Nat} {st : DlState}
    (h : fileExists st f = true) :
    (download f url net st).files = st.files ∧
    (download f url net st).fetched = st.fetched := by
  unfold download
  cases hd : st.dirs.contains (dirname f) <;>
    simp only [hd, Bool.false_eq_true, if_true, if_false] <;>
    simp only [fileExists] at h ⊢ <;>
    simp [h]

theorem download_of_absent {f url : String} {net : String → List Nat} {st : DlState}
    (h : fileExists st f = false) :
    (download f url net st).fetched = st.fetched ++ [url] ∧
    fileExists (download f url net st) f = true := by
  unfold download
  cases hd : st.dirs.contains (dirname f) <;>
    simp only [hd, Bool.false_eq_true, if_true, if_false] <;>
    simp only [fileExists] at h ⊢ <;>
    simp [h, setFile, List.lookup]

/-- C7: when the file at `file_name` already exists, `download` returns
without error, leaves the file map untouched and performs no network
fetch; when it is absent, exactly one fetch happens and the file then
exists, so a second `download` with the same path is a no-op skip — two
calls fetch exactly once. -/
theorem download_skip_idempotent (f url : String) (net : String → List Nat)
    (st : DlState) :
    (fileExists st f = true →
        (download f url net st).files = st.files ∧
        (download f url net st).fetched = st.fetched) ∧
    (fileExists st f = false →
        (download f url net st).fetched = st.fetched ++ [url] ∧
        fileExists (download f url net st) f = true) ∧
    (download f url net (download f url net st)).fetched =
      (if fileExists st f then st.fetched else st.fetched ++ [url]) := by
  refine ⟨fun h => download_of_exists h, fun h => download_of_absent h, ?_⟩
  cases hex : fileExists st f with
  | true =>
    rw [if_pos rfl]
    have h1 := @download_of_exists f url net st hex
    have h2 : fileExists (download f url net st) f = true := by
      rw [fileExists_congr h1.1]; exact hex
    rw [(download_of_exists h2).2, h1.2]
  | false =>
    rw [if_neg (by simp)]
    have h1 := @download_of_absent f url net st hex
    rw [(download_of_exists h1.2).2, h1.1]

/-- Witness for C7 from the empty state. -/
theorem download_skip_idempotent_witness :
    fileExists ⟨[], [], []⟩ "d/f.mp4" = false ∧
    ((download "d/f.mp4" "u" (fun _ => [7]) ⟨[], [], []⟩).fetched = [] ++ ["u"] ∧
      fileExists (download "d/f.mp4" "u" (fun _ => [7]) ⟨[], [], []⟩) "d/f.mp4" = true) :=
  ⟨rfl, (download_skip_idempotent "d/f.mp4" "u" (fun _ => [7]) ⟨[], [], []⟩).2.1 rfl⟩

/-! ## C9: `load_session_cookies` on missing / undecryptable / unparsable files -/

/-- Counterexample to C9 as stated: a cookie file that exists but whose
contents cannot be parsed (the outer `pickle.load` fails) raises
`UnpicklingError` — that call sits outside the `try/except`, so the
function crashes instead of reporting failure and returning `False`. -/
theorem load_session_cookies_garbage_raises :
    @load_session_cookies Unit (fun _ _ => none) (fun _ _ => ()) (fun _ => none)
        (some CookieFile.garbage) "pw" [] =
      .error PyErr.unpicklingError := rfl

/-- C9 as amended: `load_session_cookies` returns `False` when the cookie
file is missing, and when the file's envelope parses as an
`(encrypted, payload)` pair it reports failure and returns `False` both
when the payload cannot be decrypted and when the decrypted bytes cannot
be unpickled; only a file whose outer envelope itself fails to unpickle
escapes as an exception. -/
theorem load_session_cookies_amended {Key : Type}
    (dec : Key → List Nat → Option (List Nat)) (kdf : String → List Nat → Key)
    (unpickle : List Nat → Option PyObj) (pw : String)
    (c0 : List (String × String)) (bs1 bs2 plain : List Nat)
    (h1 : decrypt dec kdf bs1 pw = none)
    (h2 : decrypt dec kdf bs2 pw = some plain)
    (h3 : unpickle plain = none) :
    load_session_cookies dec kdf unpickle none pw c0 = .ok (false, c0) ∧
    load_session_cookies dec kdf unpickle
        (some (CookieFile.value (PyObj.pair (PyObj.bool true) (PyObj.bytes bs1))))
        pw c0 = .ok (false, c0) ∧
    load_session_cookies dec kdf unpickle
        (some (CookieFile.value (PyObj.pair (PyObj.bool true) (PyObj.bytes bs2))))
        pw c0 = .ok (false, c0) := by
  unfold load_session_cookies
  simp [h1, h2, h3, PyObj.truthy]

/-- Witness for C9's amended statement at a concrete toy scheme. -/
theorem load_session_cookies_amended_witness :
    decrypt (fun (_ : Unit) c => if c = [1] then some [9] else none)
        (fun _ _ => ()) ([] : List Nat) "pw" = none ∧
    decrypt (fun (_ : Unit) c => if c = [1] then some [9] else none)
        (fun _ _ => ()) (List.replicate 16 0 ++ [1]) "pw" = some [9] ∧
    (fun (_ : List Nat) => (none : Option PyObj)) [9] = none ∧
    load_session_cookies (fun (_ : Unit) c => if c = [1] then some [9] else none)
        (fun _ _ => ()) (fun _ => none) none "pw" [] = .ok (false, []) ∧
    load_session_cookies (fun (_ : Unit) c => if c = [1] then some [9] else none)
        (fun _ _ => ()) (fun _ => none)
        (some (CookieFile.value (PyObj.pair (PyObj.bool true) (PyObj.bytes []))))
        "pw" [] = .ok (false, []) ∧
    load_session_cookies (fun (_ : Unit) c => if c = [1] then some [9] else none)
        (fun _ _ => ()) (fun _ => none)
        (some (CookieFile.value (PyObj.pair (PyObj.bool true)
          (PyObj.bytes (List.replicate 16 0 ++ [1])))))
        "pw" [] = .ok (false, []) :=
  have h := load_session_cookies_amended
    (fun (_ : Unit) c => if c = [1] then some [9] else none) (fun _ _ => ())
    (fun _ => none) "pw" [] [] (List.replicate 16 0 ++ [1]) [9]
    (by decide) (by decide) rfl
  ⟨by decide, by decide, rfl, h.1, h.2.1, h.2.2⟩

/-! ## C3: syllabus-link rewriting -/

theorem stripLit_append (lit r : List Char) : stripLit lit (lit ++ r) = some r := by
  induction lit with
  | nil => rfl
  | cons c cs ih => simp [stripLit, ih]

theorem sectionUrlRest_mk_https (r : List Char) :
    sectionUrlRest (String.mk ("https://echo360.org.uk/section/".data ++ r)) = some r := by
  unfold sectionUrlRest
  show (stripLit "http".data
      ("http".data ++ ('s' :: ("://echo360.org.uk/section/".data ++ r)))).bind
      (fun r1 => stripLit "://echo360.org.uk/section/".data
        ((stripLit "s".data r1).getD r1)) = some r
  rw [stripLit_append]
  simp only [Option.some_bind]
  rw [show stripLit "s".data ('s' :: ("://echo360.org.uk/section/".data ++ r)) =
      some ("://echo360.org.uk/section/".data ++ r) from by simp [stripLit],
    Option.getD_some]
  exact stripLit_append _ _

theorem sectionUrlRest_mk_http (r : List Char) :
    sectionUrlRest (String.mk ("http://echo360.org.uk/section/".data ++ r)) = some r := by
  unfold sectionUrlRest
  show (stripLit "http".data
      ("http".data ++ (':' :: ("//echo360.org.uk/section/".data ++ r)))).bind
      (fun r1 => stripLit "://echo360.org.uk/section/".data
        ((stripLit "s".data r1).getD r1)) = some r
  rw [stripLit_append]
  simp only [Option.some_bind]
  rw [show stripLit "s".data (':' :: ("//echo360.org.uk/section/".data ++ r)) =
      (none : Option (List Char)) from by simp [stripLit],
    Option.getD_none]
  show stripLit (':' :: "//echo360.org.uk/section/".data)
      (':' :: ("//echo360.org.uk/section/".data ++ r)) = some r
  simp [stripLit, stripLit_append]

theorem takeWhile_append_of_all {p : Char → Bool} :
    ∀ (id tail : List Char), (∀ c ∈ id, p c = true) →
      (tail = [] ∨ ∃ c t, tail = c :: t ∧ p c = false) →
      (id ++ tail).takeWhile p = id := by
  intro id
  induction id with
  | nil =>
    intro tail _ h2
    rcases h2 with rfl | ⟨c, t, rfl, hc⟩
    · rfl
    · simp [List.takeWhile_cons, hc]
  | cons a as ih =>
    intro tail h1 h2
    have hpa := h1 a (List.mem_cons_self a as)
    simp only [List.cons_append, List.takeWhile_cons, hpa, if_true]
    rw [ih tail (fun c hc => h1 c (List.mem_cons_of_mem a hc)) h2]

theorem create_syllabus_link_mk_https (id tail : List Char) (hne : id ≠ [])
    (hall : ∀ c ∈ id, idChar c = true)
    (htail : tail = [] ∨ ∃ c t, tail = c :: t ∧ idChar c = false) :
    create_syllabus_link
        (String.mk ("https://echo360.org.uk/section/".data ++ id ++ tail)) =
      some (String.mk ("https://echo360.org.uk/section/".data ++ id ++ "/syllabus".data)) := by
  unfold create_syllabus_link
  rw [show ("https://echo360.org.uk/section/".data ++ id ++ tail) =
      ("https://echo360.org.uk/section/".data ++ (id ++ tail)) from List.append_assoc _ _ _,
    sectionUrlRest_mk_https (id ++ tail)]
  have ht : (id ++ tail).takeWhile idChar = id := takeWhile_append_of_all id tail hall htail
  have hie : id.isEmpty = false := by
    cases id
    · exact absurd rfl hne
    · rfl
  simp only [ht, hie, Bool.false_eq_true, if_false]

theorem create_syllabus_link_mk_http (id tail : List Char) (hne : id ≠ [])
    (hall : ∀ c ∈ id, idChar c = true)
    (htail : tail = [] ∨ ∃ c t, tail = c :: t ∧ idChar c = false) :
    create_syllabus_link
        (String.mk ("http://echo360.org.uk/section/".data ++ id ++ tail)) =
      some (String.mk ("https://echo360.org.uk/section/".data ++ id ++ "/syllabus".data)) := by
  unfold create_syllabus_link
  rw [show ("http://echo360.org.uk/section/".data ++ id ++ tail) =
      ("http://echo360.org.uk/section/".data ++ (id ++ tail)) from List.append_assoc _ _ _,
    sectionUrlRest_mk_http (id ++ tail)]
  have ht : (id ++ tail).takeWhile idChar = id := takeWhile_append_of_all id tail hall htail
  have hie : id.isEmpty = false := by
    cases id
    · exact absurd rfl hne
    · rfl
  simp only [ht, hie, Bool.false_eq_true, if_false]

/-- Counterexample to C3 as stated: `re.match` anchors only at the start
of the string, so `https://echo360.org.uk/section/abc#frag` — which does
not match the course-URL pattern as a whole (`#frag` is neither id
characters nor a `/...` suffix) — still yields the syllabus link instead
of `None`. -/
theorem create_syllabus_link_counterexample :
    specCourseUrlFull "https://echo360.org.uk/section/abc#frag" = false ∧
    create_syllabus_link "https://echo360.org.uk/section/abc#frag" =
      some "https://echo360.org.uk/section/abc/syllabus" :=
  ⟨rfl, rfl⟩

/-- C3 as amended: matching is by *prefix*, not by full match. Every
string that starts with `https?://echo360.org.uk/section/<id>` — id a
non-empty run of `[A-Za-z0-9-]`, followed by nothing, by `/...`, or by
any other non-id character (trailing junk included) — is rewritten to
exactly `https://echo360.org.uk/section/<id>/syllabus`; every string
without such a prefix (no scheme/host/section prefix, or no id character
after it) yields `None`. -/
theorem create_syllabus_link_amended :
    (∀ id tail : List Char, id ≠ [] → (∀ c ∈ id, idChar c = true) →
      (tail = [] ∨ ∃ c t, tail = c :: t ∧ idChar c = false) →
      create_syllabus_link
          (String.mk ("https://echo360.org.uk/section/".data ++ id ++ tail)) =
        some (String.mk ("https://echo360.org.uk/section/".data ++ id ++ "/syllabus".data)) ∧
      create_syllabus_link
          (String.mk ("http://echo360.org.uk/section/".data ++ id ++ tail)) =
        some (String.mk ("https://echo360.org.uk/section/".data ++ id ++ "/syllabus".data))) ∧
    (∀ s : String, sectionUrlRest s = none → create_syllabus_link s = none) ∧
    (∀ (s : String) (rest : List Char), sectionUrlRest s = some rest →
      rest.takeWhile idChar = [] → create_syllabus_link s = none) := by
  refine ⟨fun id tail hne hall htail =>
    ⟨create_syllabus_link_mk_https id tail hne hall htail,
     create_syllabus_link_mk_http id tail hne hall htail⟩, ?_, ?_⟩
  · intro s h
    unfold create_syllabus_link
    rw [h]
  · intro s rest h ht
    unfold create_syllabus_link
    rw [h]
    simp [ht]

/-- Witness for C3's amended statement at id `abc` and trailing junk `#`. -/
theorem create_syllabus_link_amended_witness :
    create_syllabus_link
        (String.mk ("https://echo360.org.uk/section/".data ++ "abc".data ++ ['#'])) =
      some (String.mk ("https://echo360.org.uk/section/".data ++ "abc".data ++ "/syllabus".data)) :=
  (create_syllabus_link_amended.1 "abc".data ['#'] (by decide) (by decide)
    (Or.inr ⟨'#', [], rfl, by decide⟩)).1

/-! ## C1: malformed responses are not always logged-and-skipped -/

/-- C1 fails on the code: a syllabus or per-lesson response whose
`status` field is *missing* passes the `"status" not in response` guard,
but the error log line then evaluates `response['status']` and raises
`KeyError` instead of returning `[]`; likewise a syllabus entry missing
`type` raises at `lecture_session["type"]`, and one missing `lesson`
raises inside the skip branch's own log message. Each conjunct evaluates
the embedding at such an input. -/
theorem scrape_videos_malformed_raises :
    scrape_videos "https://echo360.org.uk/section/abc"
        (fun _ => some (Json.obj [])) (fun _ => none) =
      .error (PyErr.keyError "status") ∧
    scrape_videos_for_lecture (Json.str "lec1")
        (fun _ => some (Json.obj [])) = .error (PyErr.keyError "status") ∧
    scrape_videos "https://echo360.org.uk/section/abc"
        (fun _ => some (Json.obj [("status", Json.str "ok"),
          ("data", Json.arr [Json.obj [("lesson", Json.obj [])]])]))
        (fun _ => none) = .error (PyErr.keyError "type") ∧
    scrape_videos "https://echo360.org.uk/section/abc"
        (fun _ => some (Json.obj [("status", Json.str "ok"),
          ("data", Json.arr [Json.obj [("type", Json.str "SyllabusLessonType")]])]))
        (fun _ => none) = .error (PyErr.keyError "lesson") :=
  ⟨rfl, rfl, rfl, rfl⟩

/-! ## C2: an entry with an empty media list is not skipped -/

/-- C2 fails on the code: the `len(medias) == 0` check only logs ("No
media."), the loop body has no `continue` there, so the per-lesson media
request *is* issued for an eligible-shaped entry whose `medias` list is
empty — the request log of the embedding contains the entry's lesson id. -/
theorem scrape_videos_empty_medias_still_requests :
    scrape_videos "https://echo360.org.uk/section/abc"
        (fun _ => some (Json.obj [("status", Json.str "ok"),
          ("data", Json.arr [Json.obj [
            ("type", Json.str "SyllabusLessonType"),
            ("lesson", Json.obj [
              ("lesson", Json.obj [("name", Json.str "L"), ("id", Json.str "lec1")]),
              ("medias", Json.arr [])])]])]))
        (fun _ => none) =
      .ok ([], [Json.str "lec1"]) :=
  rfl
